import Mathlib

/-!
Verification of the fanotify event-stream decoder and watch/listener state
machine (package `fanotify`).  The Go source is shallowly embedded: byte
buffers become `List Nat` (each element one byte), 32-bit unsigned arithmetic
is `Nat` with an explicit `% 2 ^ 32`, fallible memory accesses return
`Option`, and the external syscall surface (readlink, open-by-handle, the
kernel mark call) is a record of oracle functions.
-/

namespace Fanotify

/-- 2 ^ 32, the modulus of Go `uint32` arithmetic. -/
def M32 : Nat := 4294967296

/-! ## Byte-buffer primitives

`binary.Read(bytes.NewReader(buf[j:j+k]), binary.LittleEndian, &x)` and the
`unsafe.Pointer` casts in the source both read little-endian fixed-width
fields; out-of-range slicing, which panics in Go, is `none` here. -/

/-- Read a little-endian 16-bit value at offset `j`. -/
def readLE16 (buf : List Nat) (j : Nat) : Option Nat := do
  let b0 ← buf.get? j
  let b1 ← buf.get? (j + 1)
  pure (b0 + 256 * b1)

/-- Read a little-endian 32-bit value at offset `j`. -/
def readLE32 (buf : List Nat) (j : Nat) : Option Nat := do
  let b0 ← buf.get? j
  let b1 ← buf.get? (j + 1)
  let b2 ← buf.get? (j + 2)
  let b3 ← buf.get? (j + 3)
  pure (b0 + 256 * (b1 + 256 * (b2 + 256 * b3)))

/-- Read a little-endian 64-bit value at offset `j`. -/
def readLE64 (buf : List Nat) (j : Nat) : Option Nat := do
  let lo ← readLE32 buf j
  let hi ← readLE32 buf (j + 4)
  pure (lo + 4294967296 * hi)

/-- `buf[lo:hi]`: Go slicing, `none` when the bounds are invalid
(`lo ≤ hi ≤ len` is required, otherwise Go panics). -/
def sliceOpt (buf : List Nat) (lo hi : Nat) : Option (List Nat) :=
  if lo ≤ hi ∧ hi ≤ buf.length then some ((buf.drop lo).take (hi - lo)) else none

/-- Reinterpret a raw 32-bit value as a Go `int32` (two's complement). -/
def toInt32 (raw : Nat) : Int :=
  if raw < 2147483648 then (raw : Int) else (raw : Int) - 4294967296

/-! ## Kernel constants (values from `golang.org/x/sys/unix`) -/

/-- `unsafe.Sizeof(unix.FanotifyEventMetadata{})` on linux/amd64. -/
def sizeOfFanotifyEventMetadata : Nat := 24

/-- `unix.FANOTIFY_METADATA_VERSION` -/
def FANOTIFY_METADATA_VERSION : Nat := 3

/-- Bit pattern of `unix.FAN_NOFD` (`int32` value `-1`). -/
def FAN_NOFD_raw : Nat := 4294967295

/-- `unix.FAN_EVENT_INFO_TYPE_FID` -/
def FAN_EVENT_INFO_TYPE_FID : Nat := 1
/-- `unix.FAN_EVENT_INFO_TYPE_DFID_NAME` -/
def FAN_EVENT_INFO_TYPE_DFID_NAME : Nat := 2
/-- `unix.FAN_EVENT_INFO_TYPE_DFID` -/
def FAN_EVENT_INFO_TYPE_DFID : Nat := 3

/-- `unix.NAME_MAX` -/
def NAME_MAX : Nat := 255

/-- `unix.FAN_ENABLE_AUDIT` -/
def FAN_ENABLE_AUDIT : Nat := 64
/-- `unix.FAN_REPORT_FID` -/
def FAN_REPORT_FID : Nat := 512
/-- `unix.FAN_REPORT_DIR_FID` -/
def FAN_REPORT_DIR_FID : Nat := 1024
/-- `unix.FAN_REPORT_NAME` -/
def FAN_REPORT_NAME : Nat := 2048
/-- `unix.FAN_REPORT_DFID_NAME` (`FAN_REPORT_DIR_FID | FAN_REPORT_NAME`) -/
def FAN_REPORT_DFID_NAME : Nat := 3072

/-- `unix.FAN_ACCESS` -/
def FAN_ACCESS : Nat := 1
/-- `unix.FAN_MODIFY` -/
def FAN_MODIFY : Nat := 2
/-- `unix.FAN_ATTRIB` -/
def FAN_ATTRIB : Nat := 4
/-- `unix.FAN_MOVED_FROM` -/
def FAN_MOVED_FROM : Nat := 64
/-- `unix.FAN_MOVED_TO` -/
def FAN_MOVED_TO : Nat := 128
/-- `unix.FAN_CREATE` -/
def FAN_CREATE : Nat := 256
/-- `unix.FAN_DELETE` -/
def FAN_DELETE : Nat := 512
/-- `unix.FAN_DELETE_SELF` -/
def FAN_DELETE_SELF : Nat := 1024

/-- `unix.FAN_MARK_ADD` -/
def FAN_MARK_ADD : Nat := 1
/-- `unix.FAN_MARK_REMOVE` -/
def FAN_MARK_REMOVE : Nat := 2
/-- `unix.FAN_MARK_MOUNT` -/
def FAN_MARK_MOUNT : Nat := 16

/-! ## `unix.FanotifyEventMetadata`

```
type FanotifyEventMetadata struct {
    Event_len    uint32   // offset 0
    Vers         uint8    // offset 4
    Reserved     uint8    // offset 5
    Metadata_len uint16   // offset 6
    Mask         uint64   // offset 8
    Fd           int32    // offset 16
    Pid          int32    // offset 20
}
```
The source obtains it by an `unsafe.Pointer` cast at `&buf[i]`; the embedding
parses the same little-endian layout. -/
structure FanotifyEventMetadata where
  eventLen : Nat
  vers : Nat
  reserved : Nat
  metadataLen : Nat
  mask : Nat
  fdRaw : Nat
  pidRaw : Nat
  deriving DecidableEq, Repr

/-- Parse the fixed 24-byte event header at offset `i` of `buf`
(the `(*unix.FanotifyEventMetadata)(unsafe.Pointer(&buf[i]))` cast). -/
def parseMetadata (buf : List Nat) (i : Nat) : Option FanotifyEventMetadata := do
  let el ← readLE32 buf i
  let v ← buf.get? (i + 4)
  let r ← buf.get? (i + 5)
  let ml ← readLE16 buf (i + 6)
  let mk ← readLE64 buf (i + 8)
  let fd ← readLE32 buf (i + 16)
  let pid ← readLE32 buf (i + 20)
  pure ⟨el, v, r, ml, mk, fd, pid⟩

/-- `fanotifyEventOK` from `fanotify_event.go`:

```go
func fanotifyEventOK(meta *unix.FanotifyEventMetadata, n int) bool {
    return (n >= int(sizeOfFanotifyEventMetadata) &&
        meta.Event_len >= sizeOfFanotifyEventMetadata &&
        int(meta.Event_len) <= n)
}
```
`n` is the count of not-yet-consumed valid bytes (never negative inside
`readEvents`). -/
def fanotifyEventOK (meta : FanotifyEventMetadata) (n : Nat) : Bool :=
  decide (sizeOfFanotifyEventMetadata ≤ n) &&
    decide (sizeOfFanotifyEventMetadata ≤ meta.eventLen) &&
    decide (meta.eventLen ≤ n)

/-! ## File-handle and name extraction (`getFileHandle`, `getFileHandleWithName`)

Offsets mirror the source: `j := uint32(i) + uint32(metadataLen) +
sizeof(fanotifyEventInfoHeader) + sizeof(kernelFSID)` = `i + metadataLen + 12`
(all `uint32` additions carry an explicit `% 2 ^ 32`). -/

/-- The `unix.FileHandle` built by `unix.NewFileHandle(fhType, bytes)`. -/
structure FileHandle where
  fhType : Nat
  bytes : List Nat
  deriving DecidableEq, Repr

/-- The byte-collecting loop of `getFileHandleWithName`: read forward from
`idx`, stop at the first NUL byte, for at most `fuel` iterations; an index
outside the buffer is a fault (`none`), as in Go. -/
def readNameLoop (buf : List Nat) : Nat → Nat → Option (List Nat)
  | _, 0 => some []
  | idx, fuel + 1 => do
    let b ← buf.get? idx
    if b = 0 then
      pure []
    else
      let rest ← readNameLoop buf (idx + 1) fuel
      pure (b :: rest)

/-- `for i := j; i < j+unix.NAME_MAX; i++ { ... }` — the loop bound is
computed in `uint32`; when `j + NAME_MAX` wraps the loop body never runs. -/
def readName (buf : List Nat) (j : Nat) : Option (List Nat) :=
  readNameLoop buf j ((j + NAME_MAX) % M32 - j)

/-- `getFileHandle` from `fanotify_event.go` (lines 107–121). -/
def getFileHandle (metadataLen : Nat) (buf : List Nat) (i : Nat) :
    Option FileHandle := do
  let j0 := (i + metadataLen + 4 + 8) % M32
  let fhSize ← readLE32 buf j0
  let j1 := (j0 + 4) % M32
  let fhType ← readLE32 buf j1
  let j2 := (j1 + 4) % M32
  let hb ← sliceOpt buf j2 ((j2 + fhSize) % M32)
  pure ⟨fhType, hb⟩

/-- `getFileHandleWithName` from `fanotify_event.go` (lines 123–150): the
handle extraction of `getFileHandle` followed by the NUL-terminated name scan
(`fname` stays empty when no bytes precede the terminator). -/
def getFileHandleWithName (metadataLen : Nat) (buf : List Nat) (i : Nat) :
    Option (FileHandle × List Nat) := do
  let j0 := (i + metadataLen + 4 + 8) % M32
  let fhSize ← readLE32 buf j0
  let j1 := (j0 + 4) % M32
  let fhType ← readLE32 buf j1
  let j2 := (j1 + 4) % M32
  let hb ← sliceOpt buf j2 ((j2 + fhSize) % M32)
  let j3 := (j2 + fhSize) % M32
  let nm ← readName buf j3
  pure (⟨fhType, hb⟩, nm)

/-- Modelled from the spec (§4.3 step 3, name tier): read forward byte-by-byte
until a NUL terminator or the maximum filename length is reached, collecting
the name.  Stated over the name region only; compared with the source-derived
`readName`. -/
def specReadName (buf : List Nat) (j : Nat) : List Nat :=
  ((buf.drop j).take NAME_MAX).takeWhile (fun b => b ≠ 0)

/-! ## The decode loop of `readEvents` (`fanotify_event.go` lines 160–242)

The loop body is embedded one-to-one; the external syscalls are an oracle
record `Env`.  Go's `for` loop becomes fuel-indexed recursion so that the
cursor-advance behaviour of every branch — including the branch that does not
advance — is observable. -/

/-- The `Event` struct pushed on `l.Events` (this decoder's version has
fields `Fd`, `Path`, `FileName`, `Mask`; the name is kept as raw bytes). -/
structure Event where
  fd : Int
  path : String
  fileName : List Nat
  mask : Nat
  deriving DecidableEq, Repr

/-- Oracle for the syscalls made inside the loop: `unix.Readlink` on
`/proc/self/fd/<fd>` for the no-fd tier (`none` = error), `unix.OpenByHandleAt`
(`none` = error), and the second `Readlink` whose error is ignored by the
source (`TODO handle err case`). -/
structure Env where
  readlink : Int → Option String
  openByHandle : FileHandle → Option Int
  readlinkFd : Int → String

/-- Outcome of the in-buffer decode loop, with the events emitted so far:
`ok` = the `fanotifyEventOK` guard went false (scan over this buffer ends),
`panicked` = the metadata-version `panic`, `oob` = a memory access the Go
code would perform out of range (total-embedding artifact), `fuelOut` = the
iteration budget ran out before the loop left. -/
inductive LoopOut where
  | ok (events : List Event)
  | panicked (events : List Event)
  | oob (events : List Event)
  | fuelOut (events : List Event)
  deriving DecidableEq, Repr

/-- The decode loop of `readEvents` over one read's buffer: cursor `i`,
remaining valid bytes `n`, the function-scoped `fileName` variable `fname`
(assigned only on the name tier, stale otherwise), accumulated events `acc`
(in reverse emission order).

Branch-for-branch from the source:
* `fanotifyEventOK` false → leave the loop;
* version mismatch → `panic`;
* `metadata.Fd != FAN_NOFD`: readlink failure skips (`i += Event_len`),
  success emits — and the source does **not** advance the cursor;
* fid tier: unknown info type skips; FID/DFID extract a handle; DFID_NAME
  extracts handle+name and does `i += len(fileName)` before open-by-handle;
  open failure skips, success emits and advances `i += Event_len`,
  `n -= Event_len`. -/
def readEventsLoop (env : Env) (buf : List Nat) :
    Nat → Nat → Nat → List Nat → List Event → LoopOut
  | 0, _, _, _, acc => .fuelOut acc.reverse
  | fuel + 1, i, n, fname, acc =>
    if n < sizeOfFanotifyEventMetadata then .ok acc.reverse
    else
      match parseMetadata buf i with
      | none => .oob acc.reverse
      | some metadata =>
        if fanotifyEventOK metadata n = false then .ok acc.reverse
        else if metadata.vers ≠ FANOTIFY_METADATA_VERSION then .panicked acc.reverse
        else if metadata.fdRaw ≠ FAN_NOFD_raw then
          match env.readlink (toInt32 metadata.fdRaw) with
          | none =>
            readEventsLoop env buf fuel (i + metadata.eventLen)
              (n - metadata.eventLen) fname acc
          | some path =>
            readEventsLoop env buf fuel i n fname
              (⟨toInt32 metadata.fdRaw, path, [], metadata.mask⟩ :: acc)
        else
          match buf.get? (i + metadata.metadataLen) with
          | none => .oob acc.reverse
          | some infoType =>
            if infoType = FAN_EVENT_INFO_TYPE_FID ∨
                infoType = FAN_EVENT_INFO_TYPE_DFID then
              match getFileHandle metadata.metadataLen buf i with
              | none => .oob acc.reverse
              | some fileHandle =>
                match env.openByHandle fileHandle with
                | none =>
                  readEventsLoop env buf fuel (i + metadata.eventLen)
                    (n - metadata.eventLen) fname acc
                | some fd =>
                  readEventsLoop env buf fuel (i + metadata.eventLen)
                    (n - metadata.eventLen) fname
                    (⟨fd, env.readlinkFd fd, fname, metadata.mask⟩ :: acc)
            else if infoType = FAN_EVENT_INFO_TYPE_DFID_NAME then
              match getFileHandleWithName metadata.metadataLen buf i with
              | none => .oob acc.reverse
              | some (fileHandle, nameBytes) =>
                match env.openByHandle fileHandle with
                | none =>
                  readEventsLoop env buf fuel
                    (i + nameBytes.length + metadata.eventLen)
                    (n - metadata.eventLen) nameBytes acc
                | some fd =>
                  readEventsLoop env buf fuel
                    (i + nameBytes.length + metadata.eventLen)
                    (n - metadata.eventLen) nameBytes
                    (⟨fd, env.readlinkFd fd, nameBytes, metadata.mask⟩ :: acc)
            else
              readEventsLoop env buf fuel (i + metadata.eventLen)
                (n - metadata.eventLen) fname acc

/-! ## Watch registry (`fanotifyMark`, `fanotify_event.go` lines 30–53)

`l.watches` (a `map[string]bool` whose insertions happen only when the key is
absent, so it is duplicate-free) becomes a `List String`; the kernel mark
syscall becomes a counter plus an oracle bit `kernelOk` for its result. -/

/-- Errors surfaced by the mark paths. -/
inductive MarkErr where
  | invalidFlagCombination
  | kernelError
  deriving DecidableEq, Repr

/-- Listener state relevant to marking: the tracked-path set and the number
of kernel mark calls issued so far. -/
structure MarkState where
  watches : List String
  markCalls : Nat
  deriving DecidableEq, Repr

/-- `fanotifyMark` from `fanotify_event.go`:

```go
skip := true
_, found := l.watches[path]
if found { if remove { delete(l.watches, path); skip = false } }
else     { if !remove { l.watches[path] = true;  skip = false } }
if !skip { if err := unix.FanotifyMark(...); err != nil { return err } }
return nil
```
(The `flags`/`mask` arguments only flow into the syscall and are dropped;
the nil-listener guard is outside this state model.) -/
def fanotifyMark (kernelOk : Bool) (s : MarkState) (path : String)
    (remove : Bool) : MarkState × Option MarkErr :=
  let found := s.watches.contains path
  if found then
    if remove then
      (⟨s.watches.filter (fun p => p ≠ path), s.markCalls + 1⟩,
        if kernelOk then none else some .kernelError)
    else (s, none)
  else
    if remove then (s, none)
    else
      (⟨path :: s.watches, s.markCalls + 1⟩,
        if kernelOk then none else some .kernelError)

/-- Mask of the directory-modification event types that `WatchMount`'s
documentation rejects: create, attribute-change, move-to, move-from, delete,
self-delete. -/
def dirModifyEventMask : Nat :=
  FAN_CREATE ||| FAN_ATTRIB ||| FAN_MOVED_TO ||| FAN_MOVED_FROM |||
    FAN_DELETE ||| FAN_DELETE_SELF

/-- Modelled from the spec: the three-argument `fanotifyMark` helper called by
`WatchMount` in `fanotify_api.go` is not under `src/` (only its callers are).
Per spec §4.2, a whole-mount mark whose event mask contains a
directory-modification event type (create, attribute-change, move-to,
move-from, delete, self-delete) is rejected with the invalid-flag-combination
error before any kernel mark call is issued; otherwise the add/remove proceeds
through the idempotent tracked-set logic. -/
def fanotifyMarkChecked (kernelOk : Bool) (s : MarkState) (path : String)
    (flags mask : Nat) : MarkState × Option MarkErr :=
  if flags &&& FAN_MARK_MOUNT = FAN_MARK_MOUNT ∧
      mask &&& dirModifyEventMask ≠ 0 then
    (s, some .invalidFlagCombination)
  else
    fanotifyMark kernelOk s path
      (decide (flags &&& FAN_MARK_REMOVE = FAN_MARK_REMOVE))

/-- `WatchMount` from `fanotify_api.go` (lines 245–247):
`nl.fanotifyMark(nl.mountpoint.Name(), unix.FAN_MARK_ADD|unix.FAN_MARK_MOUNT,
uint64(eventTypes))`. -/
def WatchMount (kernelOk : Bool) (s : MarkState) (mountPath : String)
    (eventTypes : Nat) : MarkState × Option MarkErr :=
  fanotifyMarkChecked kernelOk s mountPath (FAN_MARK_ADD ||| FAN_MARK_MOUNT)
    eventTypes

/-! ## Version gate (`checkFlagsKernelSupport`, `src/unnamed/part_004`
lines 125–161)

The source iterates a Go `map[uint]kernelVersion`; map iteration order is
unspecified, so the embedding takes the iteration order as an explicit list
parameter ranging over the entries of `flagPerKernelVersion`. -/

/-- The `flagPerKernelVersion` table: `(flag, major, minor)`. -/
def flagPerKernelVersion : List (Nat × Nat × Nat) :=
  [(FAN_ENABLE_AUDIT, 4, 15), (FAN_REPORT_FID, 5, 1),
    (FAN_REPORT_DIR_FID, 5, 9), (FAN_REPORT_NAME, 5, 9),
    (FAN_REPORT_DFID_NAME, 5, 9)]

/-- `checkFlagsKernelSupport(flags, maj, min)`: for each table entry in
iteration order, if the flag bits are all set return whether the kernel
version is at least the entry's version (`maj > w || (maj == w && min >= x)`);
entries whose bits are not set are skipped; if no entry matches, the basic
option works on any kernel version (`true`). -/
def checkFlagsKernelSupport (order : List (Nat × Nat × Nat)) (flags : Nat)
    (maj min : Nat) : Bool :=
  match order with
  | [] => true
  | (k, w, x) :: rest =>
    if flags &&& k = k then
      decide (w < maj) || (decide (maj = w) && decide (x ≤ min))
    else checkFlagsKernelSupport rest flags maj min

/-! ## `Stop` (`fanotify_api.go` lines 225–236)

```go
func (l *Listener) Stop() {
    if l == nil { return }
    unix.Write(int(l.stopper.w.Fd()), []byte("stop"))
    l.mountpoint.Close()
    l.stopper.r.Close()
    l.stopper.w.Close()
    close(l.Events)
}
```
`unix.Write` on a closed descriptor and `os.File.Close` on a closed file
return errors the source ignores; `close` of an already-closed Go channel is
a runtime fault. -/

/-- The resources `Stop` touches: close-state of the mountpoint descriptor,
both cancellation-pipe ends and the output event channel, plus the log of
byte strings successfully written to the cancellation descriptor. -/
structure StopState where
  mountpointClosed : Bool
  stopperRClosed : Bool
  stopperWClosed : Bool
  eventsClosed : Bool
  stopperWritten : List (List Nat)
  deriving DecidableEq, Repr

/-- Result of a `Stop` call. -/
inductive StopResult where
  | nilListener
  | stopped (s : StopState)
  | panicked
  deriving DecidableEq, Repr

/-- The byte string `[]byte("stop")` written to the cancellation
descriptor. -/
def stopMessage : List Nat := [115, 116, 111, 112]

/-- `Stop` on a possibly-nil listener. -/
def Stop (l : Option StopState) : StopResult :=
  match l with
  | none => .nilListener
  | some s =>
    let s1 : StopState :=
      if s.stopperWClosed then s
      else ⟨s.mountpointClosed, s.stopperRClosed, s.stopperWClosed,
        s.eventsClosed, s.stopperWritten ++ [stopMessage]⟩
    if s.eventsClosed then .panicked
    else .stopped ⟨true, true, true, true, s1.stopperWritten⟩

/-! ## Helper lemmas -/

theorem filter_ne_of_mem {l : List String} {a : String} (h : a ∈ l) :
    l.filter (fun p => !decide (p = a)) ≠ l := by
  intro he
  have hmem : a ∈ l.filter (fun p => !decide (p = a)) := by
    rw [he]; exact h
  have := List.of_mem_filter hmem
  simp at this

theorem cons_ne_self_list {l : List String} {a : String} : a :: l ≠ l := by
  intro h
  have := congrArg List.length h
  simp at this

/-! ## C3 -/

/-- C3: `fanotifyEventOK(meta, n)` is true exactly when the remaining byte
count is at least the fixed header size, the declared `Event_len` is at least
the fixed header size, and the declared `Event_len` does not exceed the
remaining bytes; and the decode loop of `readEvents` processes records only
while this predicate holds, so at the first malformed record it leaves the
scan of the current buffer, emitting nothing further (trailing bytes are
dropped for this read). -/
theorem fanotifyEventOK_spec :
    (∀ (meta : FanotifyEventMetadata) (n : Nat),
      fanotifyEventOK meta n = true ↔
        (sizeOfFanotifyEventMetadata ≤ n ∧
          sizeOfFanotifyEventMetadata ≤ meta.eventLen ∧
          meta.eventLen ≤ n)) ∧
    (∀ (env : Env) (buf : List Nat) (fuel i n : Nat) (fname : List Nat)
        (acc : List Event) (meta : FanotifyEventMetadata),
      parseMetadata buf i = some meta →
      fanotifyEventOK meta n = false →
      readEventsLoop env buf (fuel + 1) i n fname acc = .ok acc.reverse) := by
  constructor
  · intro meta n
    simp [fanotifyEventOK, and_assoc]
  · intro env buf fuel i n fname acc meta hparse hbad
    by_cases hn : n < sizeOfFanotifyEventMetadata
    · simp [readEventsLoop, hn]
    · simp only [readEventsLoop, if_neg hn, hparse, hbad]
      simp

/-- Witness for C3 at a concrete record whose declared length (10) is below
the header size. -/
theorem fanotifyEventOK_spec_witness :
    (fanotifyEventOK ⟨24, 3, 0, 24, 2, 5, 7⟩ 24 = true ↔
      (sizeOfFanotifyEventMetadata ≤ 24 ∧ sizeOfFanotifyEventMetadata ≤ 24 ∧
        24 ≤ 24)) ∧
    readEventsLoop ⟨fun _ => none, fun _ => none, fun _ => ""⟩
      [10, 0, 0, 0, 3, 0, 24, 0, 2, 0, 0, 0, 0, 0, 0, 0, 5, 0, 0, 0, 7, 0, 0, 0]
      1 0 24 [] [] = .ok [] :=
  ⟨fanotifyEventOK_spec.1 ⟨24, 3, 0, 24, 2, 5, 7⟩ 24,
    fanotifyEventOK_spec.2 ⟨fun _ => none, fun _ => none, fun _ => ""⟩
      [10, 0, 0, 0, 3, 0, 24, 0, 2, 0, 0, 0, 0, 0, 0, 0, 5, 0, 0, 0, 7, 0, 0, 0]
      0 0 24 [] [] ⟨10, 3, 0, 24, 2, 5, 7⟩ (by decide) (by decide)⟩

/-! ## C4 -/

/-- C4: `fanotifyMark` issues the kernel mark call exactly when the operation
changes the tracked set; an add of an already-tracked path issues no kernel
call and returns success with the tracked set (and its mask) untouched; a
remove of an untracked path issues no kernel call, leaves the tracked set
unchanged and returns success; adding the same path twice issues exactly one
kernel mark call. -/
theorem fanotifyMark_idempotent_tracking :
    ∀ (k1 k2 : Bool) (s : MarkState) (path : String) (remove : Bool),
      (path ∈ s.watches → fanotifyMark k1 s path false = (s, none)) ∧
      (path ∉ s.watches → fanotifyMark k1 s path true = (s, none)) ∧
      ((fanotifyMark k1 s path remove).1.watches = s.watches ↔
        (fanotifyMark k1 s path remove).1.markCalls = s.markCalls) ∧
      (path ∉ s.watches →
        (fanotifyMark k1 s path false).1.markCalls = s.markCalls + 1 ∧
          fanotifyMark k2 (fanotifyMark k1 s path false).1 path false =
            ((fanotifyMark k1 s path false).1, none)) := by
  intro k1 k2 s path remove
  refine ⟨?_, ?_, ?_, ?_⟩
  · intro hmem
    simp [fanotifyMark, hmem]
  · intro hmem
    simp [fanotifyMark, hmem]
  · by_cases hmem : path ∈ s.watches
    · cases remove with
      | false => simp [fanotifyMark, hmem]
      | true =>
        have h1 := filter_ne_of_mem hmem
        have h2 : s.markCalls + 1 ≠ s.markCalls := by omega
        simp [fanotifyMark, hmem, h1, h2]
    · cases remove with
      | true => simp [fanotifyMark, hmem]
      | false =>
        have h1 : path :: s.watches ≠ s.watches := cons_ne_self_list
        have h2 : s.markCalls + 1 ≠ s.markCalls := by omega
        simp [fanotifyMark, hmem, h1, h2]
  · intro hmem
    refine ⟨by simp [fanotifyMark, hmem], ?_⟩
    simp [fanotifyMark, hmem]

/-- Witness for C4 at a concrete registry holding `/a`. -/
theorem fanotifyMark_idempotent_tracking_witness :
    fanotifyMark true ⟨["/a"], 1⟩ "/a" false = (⟨["/a"], 1⟩, none) ∧
      fanotifyMark true ⟨["/a"], 1⟩ "/b" true = (⟨["/a"], 1⟩, none) ∧
      (fanotifyMark true ⟨["/a"], 1⟩ "/b" false).1.markCalls = 1 + 1 :=
  ⟨(fanotifyMark_idempotent_tracking true true ⟨["/a"], 1⟩ "/a" false).1
      (by decide),
    ((fanotifyMark_idempotent_tracking true true ⟨["/a"], 1⟩ "/b" true).2.1
      (by decide)),
    ((fanotifyMark_idempotent_tracking true true ⟨["/a"], 1⟩ "/b" false).2.2.2
      (by decide)).1⟩

/-! ## C5 -/

/-- C5: a whole-mount mark request whose event mask contains any
directory-modification event type (create, attribute-change, move-to,
move-from, delete, self-delete) is rejected by `WatchMount` with the
invalid-flag-combination error before any kernel mark call is issued: the
listener state — in particular the kernel-mark-call counter — is unchanged. -/
theorem WatchMount_rejects_dir_modify_mask :
    ∀ (k : Bool) (s : MarkState) (mountPath : String) (mask : Nat),
      mask &&& dirModifyEventMask ≠ 0 →
      WatchMount k s mountPath mask = (s, some .invalidFlagCombination) ∧
        (WatchMount k s mountPath mask).1.markCalls = s.markCalls := by
  intro k s mountPath mask h
  have hmount : (FAN_MARK_ADD ||| FAN_MARK_MOUNT) &&& FAN_MARK_MOUNT =
      FAN_MARK_MOUNT := by decide
  have : WatchMount k s mountPath mask = (s, some .invalidFlagCombination) := by
    simp [WatchMount, fanotifyMarkChecked, hmount, h]
  exact ⟨this, by rw [this]⟩

/-- Witness for C5: a mount mark with the create bit set. -/
theorem WatchMount_rejects_dir_modify_mask_witness :
    WatchMount true ⟨[], 0⟩ "/" FAN_CREATE =
        (⟨[], 0⟩, some .invalidFlagCombination) ∧
      (WatchMount true ⟨[], 0⟩ "/" FAN_CREATE).1.markCalls = 0 :=
  WatchMount_rejects_dir_modify_mask true ⟨[], 0⟩ "/" FAN_CREATE (by decide)

/-! ## C6 -/

/-- Counterexample for C6: starting from a running listener, the first `Stop`
succeeds (closing everything), and a second `Stop` on the resulting state
faults — the source re-runs the close sequence and re-closes the already
closed output event channel, so the second call is not the claimed safe
no-op. -/
theorem Stop_second_call_faults_cex :
    Stop (some ⟨false, false, false, false, []⟩) =
        .stopped ⟨true, true, true, true, [stopMessage]⟩ ∧
      Stop (some ⟨true, true, true, true, [stopMessage]⟩) = .panicked := by
  decide

/-- C6 (amended): `Stop` on a nil listener returns without error and without
fault; but `Stop` carries no already-stopped guard, so a second call on a
stopped listener (its output channel already closed) re-runs the close
sequence and faults when it re-closes the output event channel. -/
theorem Stop_nil_noop_second_faults :
    Stop none = .nilListener ∧
      (∀ s : StopState, s.eventsClosed = true → Stop (some s) = .panicked) := by
  constructor
  · rfl
  · intro s h
    simp [Stop, h]

/-- Witness for C6's amended claim at a concrete stopped listener. -/
theorem Stop_nil_noop_second_faults_witness :
    Stop (some ⟨true, true, true, true, []⟩) = .panicked :=
  Stop_nil_noop_second_faults.2 ⟨true, true, true, true, []⟩ rfl

/-! ## C9 -/

/-- Counterexample for C9: on a running listener, `Stop` writes the byte
string `"stop"` — four bytes, not the claimed exactly one byte — to the
cancellation-signal descriptor. -/
theorem Stop_writes_four_bytes_cex :
    Stop (some ⟨false, false, false, false, []⟩) =
        .stopped ⟨true, true, true, true, [stopMessage]⟩ ∧
      stopMessage.length ≠ 1 := by
  decide

/-- C9 (amended): `Stop`, called once on a running listener, performs exactly
one write — the four-byte message `"stop"` — to the cancellation-signal
descriptor, closes the mountpoint descriptor and both ends of the
cancellation pipe, and closes the output event queue so downstream consumers
observe end-of-stream. -/
theorem Stop_running_close_sequence :
    ∀ s : StopState, s.stopperWClosed = false → s.eventsClosed = false →
      Stop (some s) =
        .stopped ⟨true, true, true, true, s.stopperWritten ++ [stopMessage]⟩ := by
  intro s h1 h2
  simp [Stop, h1, h2]

/-- Witness for C9's amended claim at a concrete running listener. -/
theorem Stop_running_close_sequence_witness :
    Stop (some ⟨false, false, false, false, []⟩) =
      .stopped ⟨true, true, true, true, [stopMessage]⟩ :=
  Stop_running_close_sequence ⟨false, false, false, false, []⟩ rfl rfl

/-! ## C1 -/

/-- Failing input for C1, first branch: a single well-formed no-fd record
(`Event_len = 24`, `Vers = 3`, `Fd = 5 ≠ FAN_NOFD`, mask `FAN_MODIFY`,
pid 7) whose `/proc/self/fd` readlink succeeds. -/
def bufNoFd : List Nat :=
  [24, 0, 0, 0, 3, 0, 24, 0, 2, 0, 0, 0, 0, 0, 0, 0, 5, 0, 0, 0, 7, 0, 0, 0]

/-- Failing input for C1, name-tier branch: a well-formed DFID_NAME record of
declared length 52 carrying the two-byte name `ab`, followed at offset 52 by
a second well-formed FID record of declared length 48. -/
def bufNameThenFid : List Nat :=
  [52, 0, 0, 0, 3, 0, 24, 0, 1, 0, 0, 0, 0, 0, 0, 0,
    255, 255, 255, 255, 0, 0, 0, 0,
    2, 0, 28, 0, 0, 0, 0, 0, 0, 0, 0, 0,
    4, 0, 0, 0, 1, 0, 0, 0, 9, 9, 9, 9, 97, 98, 0, 0,
    48, 0, 0, 0, 3, 0, 24, 0, 4, 0, 0, 0, 0, 0, 0, 0,
    255, 255, 255, 255, 0, 0, 0, 0,
    1, 0, 24, 0, 0, 0, 0, 0, 0, 0, 0, 0,
    4, 0, 0, 0, 2, 0, 0, 0, 7, 7, 7, 7]

/-- C1 (code-bug evidence): the decode loop does not advance the cursor by
the record's declared length on every branch.

First conjunct: on the no-fd emit branch the cursor is not advanced at all —
decoding the single 24-byte record of `bufNoFd` with an iteration budget of 3
re-decodes and re-emits the very same record three times and exhausts the
budget (the Go loop never terminates here).

Second conjunct: on the name-tier branches the cursor advances by
`Event_len + len(fileName)` instead of `Event_len`, so after the 52-byte
DFID_NAME record of `bufNameThenFid` the scan resumes at offset 54 instead of
52, misreads the following well-formed FID record as a record of declared
length 196608 > 48 remaining bytes, and drops it: only one event is emitted
where a correctly advancing scan would decode both records. -/
theorem readEvents_cursor_advance_bug :
    readEventsLoop
        ⟨fun _ => some "/watched/f", fun _ => some 33, fun _ => "/d"⟩
        bufNoFd 3 0 24 [] [] =
      .fuelOut [⟨5, "/watched/f", [], 2⟩, ⟨5, "/watched/f", [], 2⟩,
        ⟨5, "/watched/f", [], 2⟩] ∧
    readEventsLoop
        ⟨fun _ => some "/watched/f", fun _ => some 33, fun _ => "/d"⟩
        bufNameThenFid 4 0 100 [] [] =
      .ok [⟨33, "/d", [97, 98], 1⟩] := by
  decide

/-! ## C2 -/

/-- Counterexample input for C2: a single well-formed record whose
format-version byte is 2 while the compiled-in `FANOTIFY_METADATA_VERSION`
is 3. -/
def bufVers2 : List Nat :=
  [24, 0, 0, 0, 2, 0, 24, 0, 2, 0, 0, 0, 0, 0, 0, 0, 5, 0, 0, 0, 7, 0, 0, 0]

/-- Counterexample for C2: on a buffer whose leading record's format-version
field differs from the compiled-in version, the decode loop of `readEvents`
reaches the explicit `panic` — it emits zero events but panics the process
instead of returning a fault and letting the listener loop close its output
queue. -/
theorem readEvents_version_mismatch_panics_cex :
    readEventsLoop ⟨fun _ => none, fun _ => none, fun _ => ""⟩
      bufVers2 1 0 24 [] [] = .panicked [] := by
  decide

/-- C2 (amended): whenever the leading record is well-formed and its
format-version field differs from the compiled-in metadata version, the
decode loop panics immediately with zero Events emitted; the loop does not
stop gracefully and never reaches the queue-closing path. -/
theorem readEvents_version_mismatch_panics :
    ∀ (env : Env) (buf : List Nat) (fuel i n : Nat) (fname : List Nat)
        (meta : FanotifyEventMetadata),
      parseMetadata buf i = some meta →
      fanotifyEventOK meta n = true →
      meta.vers ≠ FANOTIFY_METADATA_VERSION →
      readEventsLoop env buf (fuel + 1) i n fname [] = .panicked [] := by
  intro env buf fuel i n fname meta hp hok hv
  have hn : ¬ n < sizeOfFanotifyEventMetadata := by
    simp only [fanotifyEventOK, Bool.and_eq_true, decide_eq_true_eq] at hok
    omega
  simp [readEventsLoop, hn, hp, hok, hv]

/-- Witness for C2's amended claim at the concrete version-2 buffer. -/
theorem readEvents_version_mismatch_panics_witness :
    readEventsLoop ⟨fun _ => some "/x", fun _ => some 3, fun _ => "/y"⟩
      bufVers2 1 0 24 [] [] = .panicked [] :=
  readEvents_version_mismatch_panics
    ⟨fun _ => some "/x", fun _ => some 3, fun _ => "/y"⟩ bufVers2 0 0 24 []
    ⟨24, 2, 0, 24, 2, 5, 7⟩ (by decide) (by decide) (by decide)

/-! ## C7 -/

theorem land_of_land_sup {flags a b : Nat} (hab : a &&& b = b)
    (h : flags &&& a = a) : flags &&& b = b := by
  have h2 : flags &&& a &&& b = a &&& b := by rw [h]
  rwa [Nat.land_assoc, hab] at h2

theorem checkFlagsKernelSupport_no_match :
    ∀ (order : List (Nat × Nat × Nat)) (flags maj min : Nat),
      (∀ e ∈ order, flags &&& e.1 ≠ e.1) →
      checkFlagsKernelSupport order flags maj min = true := by
  intro order
  induction order with
  | nil => intro flags maj min _; rfl
  | cons hd rest ih =>
    intro flags maj min h
    obtain ⟨k, wv, xv⟩ := hd
    have hk := h (k, wv, xv) (List.mem_cons_self _ _)
    simp only [checkFlagsKernelSupport, if_neg hk]
    exact ih flags maj min (fun e he => h e (List.mem_cons_of_mem _ he))

theorem checkFlagsKernelSupport_uniform :
    ∀ (order : List (Nat × Nat × Nat)) (flags maj min w x : Nat),
      (∀ e ∈ order, e ∈ flagPerKernelVersion) →
      (∀ e ∈ flagPerKernelVersion, flags &&& e.1 = e.1 →
        e.2.1 = w ∧ e.2.2 = x) →
      (∃ e ∈ order, flags &&& e.1 = e.1) →
      checkFlagsKernelSupport order flags maj min =
        (decide (w < maj) || (decide (maj = w) && decide (x ≤ min))) := by
  intro order
  induction order with
  | nil =>
    intro flags maj min w x _ _ hex
    rcases hex with ⟨e, he, _⟩
    exact absurd he (List.not_mem_nil e)
  | cons hd rest ih =>
    intro flags maj min w x hsub hver hex
    obtain ⟨k, wv, xv⟩ := hd
    by_cases hm : flags &&& k = k
    · obtain ⟨hw, hx⟩ := hver (k, wv, xv) (hsub _ (List.mem_cons_self _ _)) hm
      simp only [checkFlagsKernelSupport, if_pos hm]
      simp only at hw hx
      rw [hw, hx]
    · simp only [checkFlagsKernelSupport, if_neg hm]
      refine ih flags maj min w x (fun e he => hsub e (List.mem_cons_of_mem _ he))
        hver ?_
      rcases hex with ⟨e, he, hme⟩
      rcases List.mem_cons.mp he with heq | htail
      · subst heq
        exact absurd hme hm
      · exact ⟨e, htail, hme⟩

/-- C7: for every kernel version and requested flag set —
iterated in any order over the entries of the version table, as Go map
iteration is unordered — `checkFlagsKernelSupport` returns `true` when the
flag set contains none of the gated capabilities; when the only gated
capability present is audit-enable it returns `true` iff the version is at
least 4.15; when it is `FAN_REPORT_FID`, iff at least 5.1; and when the gated
capabilities present are among the directory-identifier/name group
(`FAN_REPORT_DIR_FID`, `FAN_REPORT_NAME`, `FAN_REPORT_DFID_NAME`), iff at
least 5.9. -/
theorem checkFlagsKernelSupport_version_gate :
    ∀ (order : List (Nat × Nat × Nat)) (flags maj min : Nat),
      (∀ e ∈ order, e ∈ flagPerKernelVersion) →
      (∀ e ∈ flagPerKernelVersion, e ∈ order) →
      ((flags &&& FAN_ENABLE_AUDIT ≠ FAN_ENABLE_AUDIT →
        flags &&& FAN_REPORT_FID ≠ FAN_REPORT_FID →
        flags &&& FAN_REPORT_DIR_FID ≠ FAN_REPORT_DIR_FID →
        flags &&& FAN_REPORT_NAME ≠ FAN_REPORT_NAME →
        checkFlagsKernelSupport order flags maj min = true) ∧
      (flags &&& FAN_ENABLE_AUDIT = FAN_ENABLE_AUDIT →
        flags &&& FAN_REPORT_FID ≠ FAN_REPORT_FID →
        flags &&& FAN_REPORT_DIR_FID ≠ FAN_REPORT_DIR_FID →
        flags &&& FAN_REPORT_NAME ≠ FAN_REPORT_NAME →
        (checkFlagsKernelSupport order flags maj min = true ↔
          (4 < maj ∨ (maj = 4 ∧ 15 ≤ min)))) ∧
      (flags &&& FAN_ENABLE_AUDIT ≠ FAN_ENABLE_AUDIT →
        flags &&& FAN_REPORT_FID = FAN_REPORT_FID →
        flags &&& FAN_REPORT_DIR_FID ≠ FAN_REPORT_DIR_FID →
        flags &&& FAN_REPORT_NAME ≠ FAN_REPORT_NAME →
        (checkFlagsKernelSupport order flags maj min = true ↔
          (5 < maj ∨ (maj = 5 ∧ 1 ≤ min)))) ∧
      (flags &&& FAN_ENABLE_AUDIT ≠ FAN_ENABLE_AUDIT →
        flags &&& FAN_REPORT_FID ≠ FAN_REPORT_FID →
        flags &&& FAN_REPORT_DIR_FID = FAN_REPORT_DIR_FID →
        (checkFlagsKernelSupport order flags maj min = true ↔
          (5 < maj ∨ (maj = 5 ∧ 9 ≤ min)))) ∧
      (flags &&& FAN_ENABLE_AUDIT ≠ FAN_ENABLE_AUDIT →
        flags &&& FAN_REPORT_FID ≠ FAN_REPORT_FID →
        flags &&& FAN_REPORT_NAME = FAN_REPORT_NAME →
        (checkFlagsKernelSupport order flags maj min = true ↔
          (5 < maj ∨ (maj = 5 ∧ 9 ≤ min))))) := by
  intro order flags maj min hsub hsup
  have hDfidDir : (FAN_REPORT_DFID_NAME : Nat) &&& FAN_REPORT_DIR_FID =
      FAN_REPORT_DIR_FID := by decide
  have hDfidName : (FAN_REPORT_DFID_NAME : Nat) &&& FAN_REPORT_NAME =
      FAN_REPORT_NAME := by decide
  refine ⟨?_, ?_, ?_, ?_, ?_⟩
  · intro h64 h512 h1024 h2048
    refine checkFlagsKernelSupport_no_match order flags maj min ?_
    intro e he
    have hmem := hsub e he
    simp only [flagPerKernelVersion, List.mem_cons, List.not_mem_nil,
      or_false] at hmem
    rcases hmem with h | h | h | h | h <;> subst h
    · exact h64
    · exact h512
    · exact h1024
    · exact h2048
    · intro hm
      exact h1024 (land_of_land_sup hDfidDir hm)
  · intro h64 h512 h1024 h2048
    have heq := checkFlagsKernelSupport_uniform order flags maj min 4 15 hsub
      ?hver ⟨(FAN_ENABLE_AUDIT, 4, 15),
        hsup _ (by simp [flagPerKernelVersion]), h64⟩
    case hver =>
      intro e hmem hm
      simp only [flagPerKernelVersion, List.mem_cons, List.not_mem_nil,
        or_false] at hmem
      rcases hmem with h | h | h | h | h <;> subst h
      · exact ⟨rfl, rfl⟩
      · exact absurd hm h512
      · exact absurd hm h1024
      · exact absurd hm h2048
      · exact absurd (land_of_land_sup hDfidDir hm) h1024
    rw [heq]
    simp
  · intro h64 h512 h1024 h2048
    have heq := checkFlagsKernelSupport_uniform order flags maj min 5 1 hsub
      ?hver ⟨(FAN_REPORT_FID, 5, 1),
        hsup _ (by simp [flagPerKernelVersion]), h512⟩
    case hver =>
      intro e hmem hm
      simp only [flagPerKernelVersion, List.mem_cons, List.not_mem_nil,
        or_false] at hmem
      rcases hmem with h | h | h | h | h <;> subst h
      · exact absurd hm h64
      · exact ⟨rfl, rfl⟩
      · exact absurd hm h1024
      · exact absurd hm h2048
      · exact absurd (land_of_land_sup hDfidDir hm) h1024
    rw [heq]
    simp
  · intro h64 h512 h1024
    have heq := checkFlagsKernelSupport_uniform order flags maj min 5 9 hsub
      ?hver ⟨(FAN_REPORT_DIR_FID, 5, 9),
        hsup _ (by simp [flagPerKernelVersion]), h1024⟩
    case hver =>
      intro e hmem hm
      simp only [flagPerKernelVersion, List.mem_cons, List.not_mem_nil,
        or_false] at hmem
      rcases hmem with h | h | h | h | h <;> subst h
      · exact absurd hm h64
      · exact absurd hm h512
      · exact ⟨rfl, rfl⟩
      · exact ⟨rfl, rfl⟩
      · exact ⟨rfl, rfl⟩
    rw [heq]
    simp
  · intro h64 h512 h2048
    have heq := checkFlagsKernelSupport_uniform order flags maj min 5 9 hsub
      ?hver ⟨(FAN_REPORT_NAME, 5, 9),
        hsup _ (by simp [flagPerKernelVersion]), h2048⟩
    case hver =>
      intro e hmem hm
      simp only [flagPerKernelVersion, List.mem_cons, List.not_mem_nil,
        or_false] at hmem
      rcases hmem with h | h | h | h | h <;> subst h
      · exact absurd hm h64
      · exact absurd hm h512
      · exact ⟨rfl, rfl⟩
      · exact ⟨rfl, rfl⟩
      · exact ⟨rfl, rfl⟩
    rw [heq]
    simp

/-- Witness for C7 at concrete iteration orders, flag sets and versions:
audit-enable is usable on 4.15 and not on 4.14;
`FAN_REPORT_FID` is usable on 5.1 and not on 4.20;
`FAN_REPORT_DFID_NAME` is usable on 5.9 and not on 5.8;
ungated flags alone are usable on 4.0. -/
theorem checkFlagsKernelSupport_version_gate_witness :
    checkFlagsKernelSupport flagPerKernelVersion FAN_ENABLE_AUDIT 4 15 =
        true ∧
      checkFlagsKernelSupport flagPerKernelVersion FAN_ENABLE_AUDIT 4 14 ≠
        true ∧
      checkFlagsKernelSupport flagPerKernelVersion FAN_REPORT_FID 5 1 =
        true ∧
      checkFlagsKernelSupport flagPerKernelVersion FAN_REPORT_FID 4 20 ≠
        true ∧
      checkFlagsKernelSupport flagPerKernelVersion FAN_REPORT_DFID_NAME 5 9 =
        true ∧
      checkFlagsKernelSupport flagPerKernelVersion FAN_REPORT_DFID_NAME 5 8 ≠
        true ∧
      checkFlagsKernelSupport flagPerKernelVersion 1 4 0 = true := by
  refine ⟨?_, ?_, ?_, ?_, ?_, ?_, ?_⟩
  · exact ((checkFlagsKernelSupport_version_gate flagPerKernelVersion
      FAN_ENABLE_AUDIT 4 15 (fun e he => he) (fun e he => he)).2.1
      (by decide) (by decide) (by decide) (by decide)).mpr (by omega)
  · intro h
    have := ((checkFlagsKernelSupport_version_gate flagPerKernelVersion
      FAN_ENABLE_AUDIT 4 14 (fun e he => he) (fun e he => he)).2.1
      (by decide) (by decide) (by decide) (by decide)).mp h
    omega
  · exact ((checkFlagsKernelSupport_version_gate flagPerKernelVersion
      FAN_REPORT_FID 5 1 (fun e he => he) (fun e he => he)).2.2.1
      (by decide) (by decide) (by decide) (by decide)).mpr (by omega)
  · intro h
    have := ((checkFlagsKernelSupport_version_gate flagPerKernelVersion
      FAN_REPORT_FID 4 20 (fun e he => he) (fun e he => he)).2.2.1
      (by decide) (by decide) (by decide) (by decide)).mp h
    omega
  · exact ((checkFlagsKernelSupport_version_gate flagPerKernelVersion
      FAN_REPORT_DFID_NAME 5 9 (fun e he => he) (fun e he => he)).2.2.2.1
      (by decide) (by decide) (by decide)).mpr (by omega)
  · intro h
    have := ((checkFlagsKernelSupport_version_gate flagPerKernelVersion
      FAN_REPORT_DFID_NAME 5 8 (fun e he => he) (fun e he => he)).2.2.2.1
      (by decide) (by decide) (by decide)).mp h
    omega
  · exact (checkFlagsKernelSupport_version_gate flagPerKernelVersion
      1 4 0 (fun e he => he) (fun e he => he)).1
      (by decide) (by decide) (by decide) (by decide)

/-! ## C8 -/

theorem readNameLoop_takeWhile (buf : List Nat) :
    ∀ (fuel j : Nat), j + fuel ≤ buf.length →
      readNameLoop buf j fuel =
        some (((buf.drop j).take fuel).takeWhile (fun b => b ≠ 0)) := by
  intro fuel
  induction fuel with
  | zero => intro j _; simp [readNameLoop]
  | succ fuel ih =>
    intro j h
    have hj : j < buf.length := by omega
    have hget : buf.get? j = some (buf.get ⟨j, hj⟩) := List.get?_eq_get hj
    have hdrop : buf.drop j = buf.get ⟨j, hj⟩ :: buf.drop (j + 1) := by
      exact List.drop_eq_getElem_cons hj
    rw [readNameLoop, hget, hdrop, List.take_succ_cons, List.takeWhile_cons]
    simp only [Option.bind_eq_bind, Option.some_bind, Option.pure_def]
    by_cases hb : buf.get ⟨j, hj⟩ = 0
    · have hb2 : buf[j] = 0 := hb
      rw [if_pos hb]
      simp [hb2]
    · have hb2 : ¬ buf[j] = 0 := hb
      rw [if_neg hb, ih (j + 1) (by omega)]
      simp only [Option.some_bind]
      simp [hb2]

theorem getFileHandleWithName_eq (buf : List Nat)
    (mdLen i fhSize fhType : Nat) (hb : List Nat)
    (hS : i + mdLen + 20 + fhSize + NAME_MAX < M32)
    (h1 : readLE32 buf (i + mdLen + 12) = some fhSize)
    (h2 : readLE32 buf (i + mdLen + 16) = some fhType)
    (h3 : sliceOpt buf (i + mdLen + 20) (i + mdLen + 20 + fhSize) = some hb) :
    getFileHandleWithName mdLen buf i =
      (readNameLoop buf (i + mdLen + 20 + fhSize) NAME_MAX).map
        (fun nm => (⟨fhType, hb⟩, nm)) := by
  have hA : i + mdLen + 12 < M32 := by omega
  have hB : i + mdLen + 16 < M32 := by omega
  have hC : i + mdLen + 20 + fhSize < M32 := by omega
  have e0 : (i + mdLen + 4 + 8) % M32 = i + mdLen + 12 := by
    have h : i + mdLen + 4 + 8 = i + mdLen + 12 := by omega
    rw [h, Nat.mod_eq_of_lt hA]
  have e1 : (i + mdLen + 12 + 4) % M32 = i + mdLen + 16 := by
    have h : i + mdLen + 12 + 4 = i + mdLen + 16 := by omega
    rw [h, Nat.mod_eq_of_lt hB]
  have e2 : (i + mdLen + 16 + 4) % M32 = i + mdLen + 20 := by
    have h : i + mdLen + 16 + 4 = i + mdLen + 20 := by omega
    rw [h, Nat.mod_eq_of_lt (by omega)]
  have e3 : (i + mdLen + 20 + fhSize) % M32 = i + mdLen + 20 + fhSize :=
    Nat.mod_eq_of_lt hC
  have e4 : (i + mdLen + 20 + fhSize + NAME_MAX) % M32 =
      i + mdLen + 20 + fhSize + NAME_MAX := Nat.mod_eq_of_lt hS
  have e5 : i + mdLen + 20 + fhSize + NAME_MAX - (i + mdLen + 20 + fhSize) =
      NAME_MAX := by omega
  rw [getFileHandleWithName]
  rw [e0, h1]
  simp only [Option.bind_eq_bind, Option.some_bind]
  rw [e1, h2]
  simp only [Option.some_bind]
  rw [e2, e3, h3]
  simp only [Option.some_bind]
  rw [readName, e4, e5]
  rcases hnm : readNameLoop buf (i + mdLen + 20 + fhSize) NAME_MAX with _ | nm
  · simp
  · simp

/-- C8: name extraction of the name-reporting (DFID_NAME) tier.

First conjunct: when the name region (immediately after the declared file
handle) starts with a NUL byte at offset 0, extraction succeeds with an empty
name — not an error.

Second conjunct: in general (whole `NAME_MAX` window inside the buffer) the
extracted name consists of the bytes collected forward from the end of the
file handle until the first NUL terminator or the `NAME_MAX` cap, whichever
comes first — exactly the spec-side `specReadName`. -/
theorem getFileHandleWithName_name_extraction :
    (∀ (buf : List Nat) (mdLen i fhSize fhType : Nat) (hb : List Nat),
      i + mdLen + 20 + fhSize + NAME_MAX < M32 →
      readLE32 buf (i + mdLen + 12) = some fhSize →
      readLE32 buf (i + mdLen + 16) = some fhType →
      sliceOpt buf (i + mdLen + 20) (i + mdLen + 20 + fhSize) = some hb →
      buf.get? (i + mdLen + 20 + fhSize) = some 0 →
      getFileHandleWithName mdLen buf i = some (⟨fhType, hb⟩, [])) ∧
    (∀ (buf : List Nat) (mdLen i fhSize fhType : Nat) (hb : List Nat),
      i + mdLen + 20 + fhSize + NAME_MAX < M32 →
      readLE32 buf (i + mdLen + 12) = some fhSize →
      readLE32 buf (i + mdLen + 16) = some fhType →
      sliceOpt buf (i + mdLen + 20) (i + mdLen + 20 + fhSize) = some hb →
      i + mdLen + 20 + fhSize + NAME_MAX ≤ buf.length →
      getFileHandleWithName mdLen buf i =
        some (⟨fhType, hb⟩, specReadName buf (i + mdLen + 20 + fhSize))) := by
  constructor
  · intro buf mdLen i fhSize fhType hb hS h1 h2 h3 h0
    rw [getFileHandleWithName_eq buf mdLen i fhSize fhType hb hS h1 h2 h3]
    have h255 : NAME_MAX = 254 + 1 := rfl
    rw [h255, readNameLoop, h0]
    simp
  · intro buf mdLen i fhSize fhType hb hS h1 h2 h3 hw
    rw [getFileHandleWithName_eq buf mdLen i fhSize fhType hb hS h1 h2 h3]
    rw [readNameLoop_takeWhile buf NAME_MAX (i + mdLen + 20 + fhSize) hw]
    simp [specReadName]

/-- Concrete name-tier sub-record whose name region starts with a NUL byte:
24-byte metadata (`Metadata_len = 24`), info header and fsid, a 4-byte file
handle, then the terminator. -/
def bufNulName : List Nat :=
  [48, 0, 0, 0, 3, 0, 24, 0, 0, 0, 0, 0, 0, 0, 0, 0,
    255, 255, 255, 255, 0, 0, 0, 0,
    2, 0, 24, 0, 0, 0, 0, 0, 0, 0, 0, 0,
    4, 0, 0, 0, 1, 0, 0, 0, 9, 9, 9, 9, 0]

/-- Concrete name-tier sub-record with the name `ab` and a full `NAME_MAX`
window of valid bytes after the handle. -/
def bufAbName : List Nat :=
  [48, 0, 0, 0, 3, 0, 24, 0, 0, 0, 0, 0, 0, 0, 0, 0,
    255, 255, 255, 255, 0, 0, 0, 0,
    2, 0, 24, 0, 0, 0, 0, 0, 0, 0, 0, 0,
    4, 0, 0, 0, 1, 0, 0, 0, 9, 9, 9, 9, 97, 98, 0] ++
    List.replicate 252 7

set_option maxRecDepth 4096 in
/-- Witness for C8: at `bufNulName` the extracted name is empty; at
`bufAbName` it equals the spec-side forward scan (the bytes of `ab`). -/
theorem getFileHandleWithName_name_extraction_witness :
    getFileHandleWithName 24 bufNulName 0 = some (⟨1, [9, 9, 9, 9]⟩, []) ∧
      getFileHandleWithName 24 bufAbName 0 =
        some (⟨1, [9, 9, 9, 9]⟩, specReadName bufAbName 48) :=
  ⟨getFileHandleWithName_name_extraction.1 bufNulName 24 0 4 1 [9, 9, 9, 9]
      (by decide) (by decide) (by decide) (by decide) (by decide),
    getFileHandleWithName_name_extraction.2 bufAbName 24 0 4 1 [9, 9, 9, 9]
      (by decide) (by decide) (by decide) (by decide) (by decide)⟩

/-! ## C10 -/

/-- A 48-byte buffer holding one name-tier (DFID_NAME) record that
`fanotifyEventOK` accepts (`Event_len = 48 = n`), whose declared 4-byte file
handle ends exactly at the end of the valid bytes, with no NUL terminator
following — the forward name scan's first read is already out of range. -/
def bufNameAtEnd : List Nat :=
  [48, 0, 0, 0, 3, 0, 24, 0, 0, 0, 0, 0, 0, 0, 0, 0,
    255, 255, 255, 255, 0, 0, 0, 0,
    2, 0, 24, 0, 0, 0, 0, 0, 0, 0, 0, 0,
    4, 0, 0, 0, 1, 0, 0, 0, 9, 9, 9, 9]

/-- A 48-byte buffer identical to `bufNameAtEnd` except that the declared
handle size is `0xFFFFFF00`, so the handle slice `buf[j:j+fhSize]` extends
far past the valid bytes. -/
def bufHugeHandle : List Nat :=
  [48, 0, 0, 0, 3, 0, 24, 0, 0, 0, 0, 0, 0, 0, 0, 0,
    255, 255, 255, 255, 0, 0, 0, 0,
    2, 0, 24, 0, 0, 0, 0, 0, 0, 0, 0, 0,
    0, 255, 255, 255, 1, 0, 0, 0, 9, 9, 9, 9]

/-- C10: sub-record field extraction is not total over buffers accepted by
`fanotifyEventOK`.

First conjunct: `bufNameAtEnd`'s leading record parses to a metadata header
that `fanotifyEventOK` accepts with all `n = 48` valid bytes, yet
`getFileHandleWithName` faults (`none`): the NUL scan runs past the end of
the buffer because neither the declared record length nor the buffer end is
checked.

Second conjunct: `bufHugeHandle`'s record is likewise accepted, yet
`getFileHandle` faults (`none`): the untrusted declared handle size sends the
handle slice out of bounds. -/
theorem subrecord_extraction_not_total :
    (parseMetadata bufNameAtEnd 0 = some ⟨48, 3, 0, 24, 0, FAN_NOFD_raw, 0⟩ ∧
      fanotifyEventOK ⟨48, 3, 0, 24, 0, FAN_NOFD_raw, 0⟩ 48 = true ∧
      getFileHandleWithName 24 bufNameAtEnd 0 = none) ∧
    (parseMetadata bufHugeHandle 0 = some ⟨48, 3, 0, 24, 0, FAN_NOFD_raw, 0⟩ ∧
      fanotifyEventOK ⟨48, 3, 0, 24, 0, FAN_NOFD_raw, 0⟩ 48 = true ∧
      getFileHandle 24 bufHugeHandle 0 = none) := by
  decide

end Fanotify
